import Mathlib

/-!
Verification of the coffee-tasting-api repository layer.

Shallow embedding of `src/app/repositories/*.py`, `src/app/models/*.py`
and the relevant request handlers in `src/app/api/v1/endpoints/*.py`.
The database is modelled as in-memory lists of records (insertion order =
row order, so `db.scalar(select(...))` is `List.find?`), UUIDs as `Nat`
ids handed out by a counter, and `datetime.utcnow()` as a `Nat` clock held
in the state.
-/

/-- Opaque user identity (the JWT subject claim), a string as in the source. -/
abbrev UserId := String

/-- Record identifier; the source uses UUID4, modelled as `Nat`. -/
abbrev RecId := Nat

/-- Timestamps (`datetime.utcnow()`), modelled as an abstract tick. -/
abbrev Timestamp := Nat

/-- Python truthiness of an `str | None` value (`if current_user_id:` in
`BaseRepository`): `None` and the empty string are falsy. -/
def truthy : Option String → Bool
  | none => false
  | some s => !s.isEmpty

/-- SQL `LIKE` matching of a string against a pattern, both given as char
lists: `%` matches any (possibly empty) run of characters, `_` matches
exactly one character, anything else matches itself. Used to model
SQLAlchemy's `column.ilike(pattern)` in `flavor_tag.py`. -/
def likeMatch (ps s : List Char) : Bool :=
  match ps, s with
  | [], s => s.isEmpty
  | p :: pr, s =>
    if p = '%' then
      likeMatch pr s ||
        (match s with
         | [] => false
         | _ :: s2 => likeMatch (p :: pr) s2)
    else
      match s with
      | [] => false
      | c :: s2 => (p == '_' || p == c) && likeMatch pr s2
termination_by ps.length + s.length
decreasing_by all_goals simp_wf <;> omega

/-- Lowercase a string, as its character list (`str.lower()` / the case
folding performed by `ILIKE`), restricted to ASCII as in `Char.toLower`. -/
def lowerChars (s : String) : List Char :=
  s.data.map Char.toLower

/-- PostgreSQL `value ILIKE pattern`: case-insensitive `LIKE`, modelled by
lowercasing both sides (wildcard characters are unaffected by lowercasing). -/
def ilike (s pat : String) : Bool :=
  likeMatch (lowerChars pat) (lowerChars s)

theorem likeMatch_percent (ps s : List Char) (h : likeMatch ps s = true) :
    ∀ pre, likeMatch ('%' :: ps) (pre ++ s) = true := by
  intro pre
  induction pre with
  | nil =>
    simp only [List.nil_append]
    rw [likeMatch.eq_def]
    simp [h]
  | cons c pre ih =>
    rw [likeMatch.eq_def]
    simp [ih]

theorem likeMatch_self (s : List Char) : likeMatch s s = true := by
  induction s with
  | nil => rw [likeMatch.eq_def]; rfl
  | cons c s ih =>
    by_cases hc : c = '%'
    · subst hc
      exact likeMatch_percent s s ih ['%']
    · rw [likeMatch.eq_def]
      simp [hc, ih]

/-- A string `ILIKE`-matches any pattern with the same lowercasing; in
particular every string matches itself as a pattern. -/
theorem ilike_of_lower_eq {s pat : String} (h : lowerChars s = lowerChars pat) :
    ilike s pat = true := by
  unfold ilike
  rw [← h]
  exact likeMatch_self _

/-- The `flavortag` table row (`app/models/coffee.py`, class `FlavorTag`),
together with the audit columns inherited from `app/models/base.py`.
The descriptive `description` column is carried along unmodified. -/
structure FlavorTag where
  id : RecId
  name : String
  category : Option String
  description : Option String
  createdAt : Timestamp
  updatedAt : Timestamp
  createdBy : Option UserId
  updatedBy : Option UserId
  deletedBy : Option UserId
  deletedAt : Option Timestamp
deriving Repr, DecidableEq

/-- The database state seen by `FlavorTagRepository`: the `flavortag` rows in
insertion order, the id generator and the clock. -/
structure TagDb where
  tags : List FlavorTag
  nextId : RecId
  now : Timestamp
deriving Repr, DecidableEq

/-- Embedding of `FlavorTagRepository.find_or_create_by_name`
(`app/repositories/flavor_tag.py:18-56`): case-insensitive lookup via
`self.model.name.ilike(name)`; on a miss, constructs
`self.model(name=name, category=category)` — note that no audit argument is
passed, so the new row's `created_by`/`updated_by` stay at the column
default `None` — and flushes it (append to the session's row list). -/
def FlavorTagRepository.findOrCreateByName (st : TagDb) (name : String)
    (category : Option String := none) : FlavorTag × TagDb :=
  match st.tags.find? (fun t => ilike t.name name) with
  | some existingTag => (existingTag, st)
  | none =>
    let newTag : FlavorTag :=
      { id := st.nextId, name := name, category := category, description := none
        createdAt := st.now, updatedAt := st.now
        createdBy := none, updatedBy := none, deletedBy := none, deletedAt := none }
    (newTag, { st with tags := st.tags ++ [newTag], nextId := st.nextId + 1 })

/-- Python `str.strip()`: remove leading and trailing whitespace. -/
def pyStrip (s : String) : String :=
  ⟨((s.data.dropWhile Char.isWhitespace).reverse.dropWhile Char.isWhitespace).reverse⟩

/-- Embedding of `FlavorTagRepository.find_or_create_multiple`
(`app/repositories/flavor_tag.py:58-81`): for each name, `if name:` (only the
empty string is falsy) strip it and resolve it with `find_or_create_by_name`,
appending results in input order. -/
def FlavorTagRepository.findOrCreateMultiple (st : TagDb) :
    List String → List FlavorTag × TagDb
  | [] => ([], st)
  | n :: ns =>
    if n ≠ "" then
      let r := FlavorTagRepository.findOrCreateByName st (pyStrip n)
      let rest := FlavorTagRepository.findOrCreateMultiple r.2 ns
      (r.1 :: rest.1, rest.2)
    else
      FlavorTagRepository.findOrCreateMultiple st ns

theorem ilike_congr_pattern {n1 n2 : String} (h : lowerChars n1 = lowerChars n2) :
    (fun t : FlavorTag => ilike t.name n2) = fun t : FlavorTag => ilike t.name n1 := by
  funext t
  unfold ilike
  rw [← h]

/-- C4: for every state and every pair of names that agree up to letter
casing, a `find_or_create_by_name` call followed by a second call with the
other casing returns a tag with the same id both times and the second call
leaves the repository state unchanged (no new tag is created). -/
theorem findOrCreateByName_caseInsensitive_idempotent (st : TagDb) (n1 n2 : String)
    (h : lowerChars n1 = lowerChars n2) :
    (FlavorTagRepository.findOrCreateByName
        (FlavorTagRepository.findOrCreateByName st n1).2 n2).1.id
      = (FlavorTagRepository.findOrCreateByName st n1).1.id
    ∧ (FlavorTagRepository.findOrCreateByName
        (FlavorTagRepository.findOrCreateByName st n1).2 n2).2
      = (FlavorTagRepository.findOrCreateByName st n1).2 := by
  unfold FlavorTagRepository.findOrCreateByName
  rw [ilike_congr_pattern h]
  cases hf : st.tags.find? (fun t => ilike t.name n1) with
  | some t => simp [hf]
  | none =>
    simp only [hf]
    have hself : ilike n1 n1 = true := ilike_of_lower_eq rfl
    simp [List.find?_append, hf, hself]

/-- Witness for C4 at the spec's own example, `"Citrus"` then `"citrus"`,
starting from an empty repository. -/
theorem findOrCreateByName_caseInsensitive_idempotent_witness :
    (lowerChars "Citrus" = lowerChars "citrus")
    ∧ ((FlavorTagRepository.findOrCreateByName
          (FlavorTagRepository.findOrCreateByName ⟨[], 0, 0⟩ "Citrus").2 "citrus").1.id
        = (FlavorTagRepository.findOrCreateByName ⟨[], 0, 0⟩ "Citrus").1.id
      ∧ (FlavorTagRepository.findOrCreateByName
          (FlavorTagRepository.findOrCreateByName ⟨[], 0, 0⟩ "Citrus").2 "citrus").2
        = (FlavorTagRepository.findOrCreateByName ⟨[], 0, 0⟩ "Citrus").2) :=
  ⟨by decide,
   findOrCreateByName_caseInsensitive_idempotent ⟨[], 0, 0⟩ "Citrus" "citrus" (by decide)⟩

/-- C3: a `FlavorTag` created through `find_or_create_by_name` has
`created_by = None` — the repository constructs the row without any audit
argument (`flavor_tag.py:40-43`), so the stored record's `created_by` is
null rather than the acting user's identity. This evaluates the code at the
failing input of the claim: a fresh tag name on an empty repository. -/
theorem findOrCreateByName_fresh_tag_createdBy_none :
    ((FlavorTagRepository.findOrCreateByName ⟨[], 0, 0⟩ "Citrus").1).createdBy = none
    ∧ ((FlavorTagRepository.findOrCreateByName ⟨[], 0, 0⟩ "Citrus").2).tags.map
        FlavorTag.createdBy = [none] := by
  exact ⟨rfl, rfl⟩

/-- An audited row (`app/models/base.py`, class `Base`): common id, timestamp
and audit columns plus the entity-specific columns in `payload`. -/
structure Rec (alpha : Type) where
  id : RecId
  payload : alpha
  createdAt : Timestamp
  updatedAt : Timestamp
  createdBy : Option UserId
  updatedBy : Option UserId
  deletedBy : Option UserId
  deletedAt : Option Timestamp
deriving Repr, DecidableEq

/-- A table of audited rows in insertion order. -/
abbrev Db (alpha : Type) := List (Rec alpha)

/-- Embedding of `BaseRepository.get` (`app/repositories/base.py:25-34`):
fetch by primary key; if found but soft-deleted and `include_deleted` is
false, behave as not-found. -/
def BaseRepository.get (db : Db alpha) (i : RecId) (includeDeleted : Bool := false) :
    Option (Rec alpha) :=
  match db.find? (fun r => r.id == i) with
  | none => none
  | some obj => if !includeDeleted && obj.deletedAt.isSome then none else some obj

/-- Embedding of `BaseRepository.get_multi` (`base.py:36-47`): optional
`deleted_at IS NULL` filter, then offset/limit. -/
def BaseRepository.getMulti (db : Db alpha) (skip limit : Nat)
    (includeDeleted : Bool := false) : Db alpha :=
  (((if includeDeleted then db else db.filter (fun r => r.deletedAt == none))).drop
    skip).take limit

/-- Embedding of `BaseRepository.count` (`base.py:130-140`). -/
def BaseRepository.count (db : Db alpha) (includeDeleted : Bool := false) : Nat :=
  (if includeDeleted then db else db.filter (fun r => r.deletedAt == none)).length

/-- Embedding of `BaseRepository.exists` (`base.py:142-149`); named
`existsById` here because `exists` is awkward as a Lean identifier. -/
def BaseRepository.existsById (db : Db alpha) (i : RecId)
    (includeDeleted : Bool := false) : Bool :=
  (BaseRepository.get db i includeDeleted).isSome

/-- Embedding of `BaseRepository.create` (`base.py:49-67`): builds the row
from the create-schema payload, stamping `created_by`/`updated_by` only when
`current_user_id` is truthy, and appends it. -/
def BaseRepository.create (db : Db alpha) (nextId : RecId) (now : Timestamp)
    (objIn : alpha) (currentUserId : Option UserId) : Rec alpha × Db alpha :=
  let dbObj : Rec alpha :=
    { id := nextId, payload := objIn, createdAt := now, updatedAt := now
      createdBy := if truthy currentUserId then currentUserId else none
      updatedBy := if truthy currentUserId then currentUserId else none
      deletedBy := none, deletedAt := none }
  (dbObj, db ++ [dbObj])

/-- Embedding of `BaseRepository.delete` (`base.py:101-128`): default `get`
(so an already-soft-deleted or absent id raises `ValueError`, modelled as
`Except.error`), then either hard removal or a soft delete stamping
`deleted_at` and, for a truthy user, `deleted_by`. -/
def BaseRepository.delete (db : Db alpha) (i : RecId) (currentUserId : Option UserId)
    (now : Timestamp) (hardDelete : Bool := false) :
    Except String (Rec alpha × Db alpha) :=
  match BaseRepository.get db i with
  | some obj =>
    if hardDelete then
      .ok (obj, db.eraseP (fun r => r.id == i))
    else
      let obj1 := { obj with
        deletedAt := some now
        deletedBy := if truthy currentUserId then currentUserId else obj.deletedBy }
      .ok (obj1, db.map (fun r => if r.id == i then obj1 else r))
  | none => .error "not found"

/-- Embedding of `BaseRepository.restore` (`base.py:151-170`): fetch with
`include_deleted=True`; if present and currently soft-deleted, clear
`deleted_at`/`deleted_by` and stamp `updated_by` for a truthy user,
otherwise raise (`ValueError`, modelled as `Except.error`). -/
def BaseRepository.restore (db : Db alpha) (i : RecId) (currentUserId : Option UserId) :
    Except String (Rec alpha × Db alpha) :=
  match BaseRepository.get db i true with
  | some obj =>
    if obj.deletedAt.isSome then
      let obj1 := { obj with
        deletedAt := none
        deletedBy := none
        updatedBy := if truthy currentUserId then currentUserId else obj.updatedBy }
      .ok (obj1, db.map (fun r => if r.id == i then obj1 else r))
    else
      .error "not found or not deleted"
  | none => .error "not found or not deleted"

theorem find?_map_idUpdate {alpha : Type} (db : Db alpha) (i : RecId) (r1 : Rec alpha)
    (h1 : r1.id = i) :
    (db.map (fun x => if x.id == i then r1 else x)).find? (fun r => r.id == i)
      = (db.find? (fun r => r.id == i)).map (fun x => if x.id == i then r1 else x) := by
  have hp : ((fun r : Rec alpha => r.id == i) ∘ fun x => if x.id == i then r1 else x)
      = fun r : Rec alpha => r.id == i := by
    funext x
    by_cases hx : x.id = i
    · simp [Function.comp, hx, h1]
    · simp [Function.comp, hx]
  rw [List.find?_map, hp]

/-- C5: soft-deleting an existing live record and then restoring it succeeds,
clears `deleted_at`/`deleted_by`, stamps `updated_by` with the acting user,
and a subsequent default `get` finds the record again; `restore` fails when
the id does not exist or the record is not currently soft-deleted. -/
theorem softDelete_restore_roundtrip {alpha : Type} (db : Db alpha) (u : UserId)
    (now : Timestamp) (hu : truthy (some u) = true) :
    (∀ r : Rec alpha, db.find? (fun x => x.id == r.id) = some r → r.deletedAt = none →
      ∃ r1 db1 r2 db2,
        BaseRepository.delete db r.id (some u) now = .ok (r1, db1)
        ∧ BaseRepository.restore db1 r.id (some u) = .ok (r2, db2)
        ∧ r2.deletedAt = none ∧ r2.deletedBy = none ∧ r2.updatedBy = some u
        ∧ BaseRepository.get db2 r.id = some r2)
    ∧ (∀ i, db.find? (fun x => x.id == i) = none →
        BaseRepository.restore db i (some u) = .error "not found or not deleted")
    ∧ (∀ i r, db.find? (fun x => x.id == i) = some r → r.deletedAt = none →
        BaseRepository.restore db i (some u) = .error "not found or not deleted") := by
  refine ⟨?_, ?_, ?_⟩
  · intro r hfind hlive
    have hget : BaseRepository.get db r.id = some r := by
      unfold BaseRepository.get
      rw [hfind]
      simp [hlive]
    have hfind1 :
        (db.map (fun x => if x.id == r.id
            then { r with deletedAt := some now, deletedBy := some u } else x)).find?
          (fun x => x.id == r.id)
        = some { r with deletedAt := some now, deletedBy := some u } := by
      rw [find?_map_idUpdate db r.id
        { r with deletedAt := some now, deletedBy := some u } rfl, hfind]
      simp
    have hfind2 :
        ((db.map (fun x => if x.id == r.id
            then { r with deletedAt := some now, deletedBy := some u } else x)).map
          (fun x => if x.id == r.id
            then { r with deletedAt := none, deletedBy := none, updatedBy := some u }
            else x)).find? (fun x => x.id == r.id)
        = some { r with deletedAt := none, deletedBy := none, updatedBy := some u } := by
      rw [find?_map_idUpdate _ r.id
        { r with deletedAt := none, deletedBy := none, updatedBy := some u } rfl, hfind1]
      simp
    refine ⟨{ r with deletedAt := some now, deletedBy := some u },
      db.map (fun x => if x.id == r.id
        then { r with deletedAt := some now, deletedBy := some u } else x),
      { r with deletedAt := none, deletedBy := none, updatedBy := some u },
      (db.map (fun x => if x.id == r.id
        then { r with deletedAt := some now, deletedBy := some u } else x)).map
        (fun x => if x.id == r.id
          then { r with deletedAt := none, deletedBy := none, updatedBy := some u }
          else x),
      ?_, ?_, rfl, rfl, rfl, ?_⟩
    · unfold BaseRepository.delete
      rw [hget]
      simp [hu]
    · unfold BaseRepository.restore BaseRepository.get
      rw [hfind1]
      simp [hu]
    · unfold BaseRepository.get
      rw [hfind2]
      simp
  · intro i hnone
    unfold BaseRepository.restore BaseRepository.get
    rw [hnone]
  · intro i r hfind hlive
    unfold BaseRepository.restore BaseRepository.get
    rw [hfind]
    simp [hlive]

/-- Witness for C5 on a one-row table over a trivial payload. -/
theorem softDelete_restore_roundtrip_witness :
    (∃ r1 db1 r2 db2,
      BaseRepository.delete [(⟨1, (), 0, 0, some "a", some "a", none, none⟩ : Rec Unit)]
          1 (some "u") 7 = .ok (r1, db1)
      ∧ BaseRepository.restore db1 1 (some "u") = .ok (r2, db2)
      ∧ r2.deletedAt = none ∧ r2.deletedBy = none ∧ r2.updatedBy = some "u"
      ∧ BaseRepository.get db2 1 = some r2)
    ∧ BaseRepository.restore ([] : Db Unit) 2 (some "u")
        = .error "not found or not deleted"
    ∧ BaseRepository.restore [(⟨1, (), 0, 0, some "a", some "a", none, none⟩ : Rec Unit)]
        1 (some "u") = .error "not found or not deleted" := by
  have h := softDelete_restore_roundtrip
    [(⟨1, (), 0, 0, some "a", some "a", none, none⟩ : Rec Unit)] "u" 7 (by decide)
  have h2 := softDelete_restore_roundtrip ([] : Db Unit) "u" 7 (by decide)
  exact ⟨h.1 ⟨1, (), 0, 0, some "a", some "a", none, none⟩ rfl rfl,
    h2.2.1 2 rfl,
    h.2.2 1 ⟨1, (), 0, 0, some "a", some "a", none, none⟩ rfl rfl⟩

/-- Entity columns of the `roaster` table (`app/models/coffee.py`, class
`Roaster`). `name` is `NOT NULL` at the database, but at the object level
`BaseRepository.update` assigns whatever the update schema carried via
`setattr`, so every column is modelled as assignable to null. -/
structure RoasterData where
  name : Option String
  location : Option String
  website : Option String
  description : Option String
deriving Repr, DecidableEq

/-- Attribute names of the `RoasterUpdate` schema (`app/schemas/roaster.py`);
all of them exist on the model, so the `hasattr` guard in
`BaseRepository.update` always passes. -/
inductive RoasterAttr where
  | name
  | location
  | website
  | description
deriving Repr, DecidableEq

/-- The `RoasterUpdate` pydantic schema: every field optional, and the schema
distinguishes a field that was not provided (outer `none`) from a field
explicitly set to null (`some none`). -/
structure RoasterUpdate where
  name : Option (Option String)
  location : Option (Option String)
  website : Option (Option String)
  description : Option (Option String)
deriving Repr, DecidableEq

/-- Pydantic `model_dump(exclude_unset=True)`: the provided fields, in schema
declaration order, with their carried values. -/
def RoasterUpdate.dumpExcludeUnset (u : RoasterUpdate) :
    List (RoasterAttr × Option String) :=
  (match u.name with | none => [] | some v => [(.name, v)]) ++
  (match u.location with | none => [] | some v => [(.location, v)]) ++
  (match u.website with | none => [] | some v => [(.website, v)]) ++
  (match u.description with | none => [] | some v => [(.description, v)])

/-- Python `setattr(db_obj, field, value)` for the roaster columns. -/
def setRoasterAttr (r : Rec RoasterData) (fv : RoasterAttr × Option String) :
    Rec RoasterData :=
  match fv.1 with
  | .name => { r with payload := { r.payload with name := fv.2 } }
  | .location => { r with payload := { r.payload with location := fv.2 } }
  | .website => { r with payload := { r.payload with website := fv.2 } }
  | .description => { r with payload := { r.payload with description := fv.2 } }

/-- Embedding of `BaseRepository.update` (`base.py:69-99`) instantiated at the
Roaster entity: dump the set fields, add `updated_by` for a truthy user, and
apply each assignment in order. (The `updated_at` column refresh is an ORM
`onupdate` column default applied by the storage layer at flush time, outside
this function; this embedding covers the repository method itself.) -/
def BaseRepository.updateRoaster (db : Db RoasterData) (dbObj : Rec RoasterData)
    (objIn : RoasterUpdate) (currentUserId : Option UserId) :
    Rec RoasterData × Db RoasterData :=
  let updateData := objIn.dumpExcludeUnset
  let obj1 := updateData.foldl setRoasterAttr dbObj
  let obj2 := if truthy currentUserId then { obj1 with updatedBy := currentUserId } else obj1
  (obj2, db.map (fun r => if r.id == dbObj.id then obj2 else r))

/-- C6: `update` applies exactly the fields present in the input — absent
fields are untouched, explicitly-null fields are cleared — stamps
`updated_by` with the acting user, and leaves every other field unchanged. -/
theorem update_partial_semantics (db : Db RoasterData) (dbObj : Rec RoasterData)
    (u : RoasterUpdate) (actingUser : UserId)
    (hu : truthy (some actingUser) = true) :
    ((BaseRepository.updateRoaster db dbObj u (some actingUser)).1.payload.name
        = match u.name with | none => dbObj.payload.name | some v => v)
    ∧ ((BaseRepository.updateRoaster db dbObj u (some actingUser)).1.payload.location
        = match u.location with | none => dbObj.payload.location | some v => v)
    ∧ ((BaseRepository.updateRoaster db dbObj u (some actingUser)).1.payload.website
        = match u.website with | none => dbObj.payload.website | some v => v)
    ∧ ((BaseRepository.updateRoaster db dbObj u (some actingUser)).1.payload.description
        = match u.description with | none => dbObj.payload.description | some v => v)
    ∧ (BaseRepository.updateRoaster db dbObj u (some actingUser)).1.updatedBy
        = some actingUser
    ∧ (BaseRepository.updateRoaster db dbObj u (some actingUser)).1.id = dbObj.id
    ∧ (BaseRepository.updateRoaster db dbObj u (some actingUser)).1.createdAt
        = dbObj.createdAt
    ∧ (BaseRepository.updateRoaster db dbObj u (some actingUser)).1.updatedAt
        = dbObj.updatedAt
    ∧ (BaseRepository.updateRoaster db dbObj u (some actingUser)).1.createdBy
        = dbObj.createdBy
    ∧ (BaseRepository.updateRoaster db dbObj u (some actingUser)).1.deletedAt
        = dbObj.deletedAt
    ∧ (BaseRepository.updateRoaster db dbObj u (some actingUser)).1.deletedBy
        = dbObj.deletedBy := by
  obtain ⟨n, l, w, d⟩ := u
  cases n <;> cases l <;> cases w <;> cases d <;>
    simp [BaseRepository.updateRoaster, RoasterUpdate.dumpExcludeUnset, setRoasterAttr, hu]

/-- Witness for C6: an update that sets `location`, explicitly nulls
`website`, and leaves `name` and `description` absent. -/
theorem update_partial_semantics_witness :
    truthy (some "u2") = true
    ∧ ((BaseRepository.updateRoaster
          [⟨1, ⟨some "Blue Bottle", some "Oakland", some "bb.example", none⟩,
            0, 0, some "u1", some "u1", none, none⟩]
          ⟨1, ⟨some "Blue Bottle", some "Oakland", some "bb.example", none⟩,
            0, 0, some "u1", some "u1", none, none⟩
          ⟨none, some (some "NYC"), some none, none⟩ (some "u2")).1.payload.name
        = some "Blue Bottle"
      ∧ (BaseRepository.updateRoaster
          [⟨1, ⟨some "Blue Bottle", some "Oakland", some "bb.example", none⟩,
            0, 0, some "u1", some "u1", none, none⟩]
          ⟨1, ⟨some "Blue Bottle", some "Oakland", some "bb.example", none⟩,
            0, 0, some "u1", some "u1", none, none⟩
          ⟨none, some (some "NYC"), some none, none⟩ (some "u2")).1.payload.location
        = some "NYC"
      ∧ (BaseRepository.updateRoaster
          [⟨1, ⟨some "Blue Bottle", some "Oakland", some "bb.example", none⟩,
            0, 0, some "u1", some "u1", none, none⟩]
          ⟨1, ⟨some "Blue Bottle", some "Oakland", some "bb.example", none⟩,
            0, 0, some "u1", some "u1", none, none⟩
          ⟨none, some (some "NYC"), some none, none⟩ (some "u2")).1.payload.website
        = none
      ∧ (BaseRepository.updateRoaster
          [⟨1, ⟨some "Blue Bottle", some "Oakland", some "bb.example", none⟩,
            0, 0, some "u1", some "u1", none, none⟩]
          ⟨1, ⟨some "Blue Bottle", some "Oakland", some "bb.example", none⟩,
            0, 0, some "u1", some "u1", none, none⟩
          ⟨none, some (some "NYC"), some none, none⟩ (some "u2")).1.updatedBy
        = some "u2") := by
  have h := update_partial_semantics
    [⟨1, ⟨some "Blue Bottle", some "Oakland", some "bb.example", none⟩,
      0, 0, some "u1", some "u1", none, none⟩]
    ⟨1, ⟨some "Blue Bottle", some "Oakland", some "bb.example", none⟩,
      0, 0, some "u1", some "u1", none, none⟩
    ⟨none, some (some "NYC"), some none, none⟩ "u2" (by decide)
  exact ⟨by decide, h.1, h.2.1, h.2.2.1, h.2.2.2.2.1⟩

/-- The `coffee` table row (`app/models/coffee.py`, class `Coffee`) with the
audit columns of `app/models/base.py` and the `coffee_flavors` association
rows folded in as `flavorTagIds`. The purely descriptive optional columns
(origin, processing, roast, price, bag size) play no role in the verified
claims and are not modelled. -/
structure Coffee where
  id : RecId
  name : String
  roasterId : RecId
  flavorTagIds : List RecId
  createdAt : Timestamp
  updatedAt : Timestamp
  createdBy : Option UserId
  updatedBy : Option UserId
  deletedBy : Option UserId
  deletedAt : Option Timestamp
deriving Repr, DecidableEq

/-- Embedding of the override `CoffeeRepository.get`
(`app/repositories/coffee.py:21-32`): plain lookup by id with eager-loaded
flavor tags. Unlike `BaseRepository.get` it applies no `deleted_at` filter,
and its `include_delete` parameter is accepted but never used — both exactly
as in the source. -/
def CoffeeRepository.get (db : List Coffee) (i : RecId)
    (includeDelete : Bool := false) : Option Coffee :=
  db.find? (fun c => c.id == i)

/-- Embedding of the override `CoffeeRepository.get_multi`
(`coffee.py:34-52`): offset/limit pagination with no `deleted_at` filter
(the `include_deleted` parameter is accepted but never used, as in the
source). -/
def CoffeeRepository.getMulti (db : List Coffee) (skip limit : Nat)
    (includeDeleted : Bool := false) : List Coffee :=
  (db.drop skip).take limit

/-- Embedding of `CoffeeRepository.get_with_flavor_tags`
(`coffee.py:94-113`): lookup by id, no `deleted_at` filter. -/
def CoffeeRepository.getWithFlavorTags (db : List Coffee) (i : RecId) :
    Option Coffee :=
  db.find? (fun c => c.id == i)

/-- Embedding of `CoffeeRepository.get_by_name_and_roaster`
(`coffee.py:115-136`): exact match on `(name, roaster_id)` with no
`deleted_at` filter, returned through `scalar_one_or_none` (which raises
`MultipleResultsFound` when more than one row matches). -/
def CoffeeRepository.getByNameAndRoaster (db : List Coffee) (name : String)
    (roasterId : RecId) : Except String (Option Coffee) :=
  match db.filter (fun c => c.name == name && c.roasterId == roasterId) with
  | [] => .ok none
  | [c] => .ok (some c)
  | _ => .error "MultipleResultsFound"

/-- Entity columns of the `tasting_session` table (`app/models/tasting.py`,
class `TastingSession`) needed by the claims; the brewing-parameter columns
are purely descriptive and not modelled. -/
structure SessionData where
  coffeeId : RecId
  userId : UserId
deriving Repr, DecidableEq

/-- Entity columns of the `tasting_note` table (`app/models/tasting.py`,
class `TastingNote`) needed by the claims; intensity and the phase booleans
are purely descriptive and not modelled. -/
structure NoteData where
  tastingSessionId : RecId
  flavorTagId : RecId
deriving Repr, DecidableEq

/-- The persistent state reachable from the request handlers: one list per
table (insertion order), a shared id generator and the clock. -/
structure AppState where
  roasters : Db RoasterData
  coffees : List Coffee
  tags : List FlavorTag
  sessions : Db SessionData
  notes : Db NoteData
  nextId : RecId
  now : Timestamp
deriving Repr, DecidableEq

/-- The body of a `POST /coffees` request (`CoffeeCreate` in
`app/schemas/coffee.py`): name, roaster id and flavor-tag names. -/
structure CoffeeCreateData where
  name : String
  roasterId : RecId
  flavorTags : List String
deriving Repr, DecidableEq

/-- Embedding of `CoffeeRepository.create_with_flavor_tags`
(`coffee.py:54-92`): builds the coffee row, stamping
`created_by`/`updated_by` for a truthy user, associates the already-resolved
flavor tags, and commits. -/
def CoffeeRepository.createWithFlavorTags (st : AppState)
    (coffeeData : CoffeeCreateData) (flavorTags : List FlavorTag)
    (currentUserId : Option UserId) : Coffee × AppState :=
  let dbCoffee : Coffee :=
    { id := st.nextId, name := coffeeData.name, roasterId := coffeeData.roasterId
      flavorTagIds := flavorTags.map FlavorTag.id
      createdAt := st.now, updatedAt := st.now
      createdBy := if truthy currentUserId then currentUserId else none
      updatedBy := if truthy currentUserId then currentUserId else none
      deletedBy := none, deletedAt := none }
  (dbCoffee, { st with coffees := st.coffees ++ [dbCoffee], nextId := st.nextId + 1 })

/-- Embedding of the `POST /coffees` handler `create_coffee`
(`app/api/v1/endpoints/coffees.py:18-75`): verify the roaster exists (404),
check `(name, roaster_id)` uniqueness (400) before any flavor-tag work,
resolve flavor tags with `find_or_create_multiple` only when the list is
truthy, then create. A `MultipleResultsFound` escape from
`scalar_one_or_none` falls into the catch-all and becomes a 500. -/
def createCoffee (st : AppState) (coffeeData : CoffeeCreateData)
    (currentUserId : UserId) : Except Nat Coffee × AppState :=
  match BaseRepository.get st.roasters coffeeData.roasterId with
  | none => (.error 404, st)
  | some _ =>
    match CoffeeRepository.getByNameAndRoaster st.coffees coffeeData.name
        coffeeData.roasterId with
    | .error _ => (.error 500, st)
    | .ok (some _) => (.error 400, st)
    | .ok none =>
      let resolved :=
        if coffeeData.flavorTags ≠ [] then
          FlavorTagRepository.findOrCreateMultiple ⟨st.tags, st.nextId, st.now⟩
            coffeeData.flavorTags
        else ([], ⟨st.tags, st.nextId, st.now⟩)
      let st1 := { st with tags := resolved.2.tags, nextId := resolved.2.nextId }
      let r := CoffeeRepository.createWithFlavorTags st1 coffeeData resolved.1
        (some currentUserId)
      (.ok r.1, r.2)

/-- C1: evaluating the Coffee read path at the failing input. A soft-deleted
coffee (`deleted_at` set) is still returned by `CoffeeRepository.get` and
still listed by `CoffeeRepository.get_multi` with the include-deleted flag
left at its false default — the overrides in `coffee.py` dropped the
`deleted_at` filter that `BaseRepository` applies — while the base
repository used by the other entities excludes the equivalent record. -/
theorem coffeeGet_returns_soft_deleted :
    CoffeeRepository.get
        [{ id := 1, name := "Kona", roasterId := 2, flavorTagIds := []
           createdAt := 0, updatedAt := 0, createdBy := some "u"
           updatedBy := some "u", deletedBy := some "u", deletedAt := some 5 }] 1
      = some { id := 1, name := "Kona", roasterId := 2, flavorTagIds := []
               createdAt := 0, updatedAt := 0, createdBy := some "u"
               updatedBy := some "u", deletedBy := some "u", deletedAt := some 5 }
    ∧ CoffeeRepository.getMulti
        [{ id := 1, name := "Kona", roasterId := 2, flavorTagIds := []
           createdAt := 0, updatedAt := 0, createdBy := some "u"
           updatedBy := some "u", deletedBy := some "u", deletedAt := some 5 }] 0 100
      = [{ id := 1, name := "Kona", roasterId := 2, flavorTagIds := []
           createdAt := 0, updatedAt := 0, createdBy := some "u"
           updatedBy := some "u", deletedBy := some "u", deletedAt := some 5 }]
    ∧ BaseRepository.get
        [(⟨1, (), 0, 0, some "u", some "u", some "u", some 5⟩ : Rec Unit)] 1
      = none := by
  exact ⟨rfl, rfl, rfl⟩

/-- C2: when a matching `(name, roaster_id)` coffee already exists, the
create handler answers 400 and the state — in particular the flavor-tag
table — is untouched, because the uniqueness check runs before any
flavor-tag resolution; with no matching coffee (e.g. the same name under a
different roaster) the create succeeds. -/
theorem createCoffee_conflict_before_side_effects (st : AppState) (user : UserId) :
    (∀ (input : CoffeeCreateData) (ro : Rec RoasterData) (c : Coffee),
      BaseRepository.get st.roasters input.roasterId = some ro →
      st.coffees.filter
          (fun x => x.name == input.name && x.roasterId == input.roasterId) = [c] →
      createCoffee st input user = (.error 400, st))
    ∧ (∀ (input : CoffeeCreateData) (ro : Rec RoasterData),
      BaseRepository.get st.roasters input.roasterId = some ro →
      st.coffees.filter
          (fun x => x.name == input.name && x.roasterId == input.roasterId) = [] →
      ∃ cNew, (createCoffee st input user).1 = .ok cNew
        ∧ cNew.name = input.name ∧ cNew.roasterId = input.roasterId
        ∧ (createCoffee st input user).2.coffees = st.coffees ++ [cNew]) := by
  constructor
  · intro input ro c hro hfilter
    unfold createCoffee CoffeeRepository.getByNameAndRoaster
    rw [hro, hfilter]
  · intro input ro hro hfilter
    unfold createCoffee CoffeeRepository.getByNameAndRoaster
    rw [hro, hfilter]
    exact ⟨_, rfl, rfl, rfl, rfl⟩

/-- Witness for C2: a one-coffee catalogue; re-creating `("Kona", roaster 2)`
conflicts with 400 and an unchanged state, while `("Kona", roaster 3)`
succeeds. -/
theorem createCoffee_conflict_before_side_effects_witness :
    createCoffee
        ⟨[⟨2, ⟨some "BB", none, none, none⟩, 0, 0, some "u", some "u", none, none⟩,
          ⟨3, ⟨some "Sey", none, none, none⟩, 0, 0, some "u", some "u", none, none⟩],
         [⟨1, "Kona", 2, [], 0, 0, some "u", some "u", none, none⟩], [], [], [], 10, 99⟩
        ⟨"Kona", 2, []⟩ "u"
      = (.error 400,
         ⟨[⟨2, ⟨some "BB", none, none, none⟩, 0, 0, some "u", some "u", none, none⟩,
           ⟨3, ⟨some "Sey", none, none, none⟩, 0, 0, some "u", some "u", none, none⟩],
          [⟨1, "Kona", 2, [], 0, 0, some "u", some "u", none, none⟩], [], [], [], 10, 99⟩)
    ∧ ∃ cNew,
        (createCoffee
          ⟨[⟨2, ⟨some "BB", none, none, none⟩, 0, 0, some "u", some "u", none, none⟩,
            ⟨3, ⟨some "Sey", none, none, none⟩, 0, 0, some "u", some "u", none, none⟩],
           [⟨1, "Kona", 2, [], 0, 0, some "u", some "u", none, none⟩], [], [], [], 10, 99⟩
          ⟨"Kona", 3, []⟩ "u").1 = .ok cNew
        ∧ cNew.name = "Kona" ∧ cNew.roasterId = 3 := by
  have h := createCoffee_conflict_before_side_effects
    ⟨[⟨2, ⟨some "BB", none, none, none⟩, 0, 0, some "u", some "u", none, none⟩,
      ⟨3, ⟨some "Sey", none, none, none⟩, 0, 0, some "u", some "u", none, none⟩],
     [⟨1, "Kona", 2, [], 0, 0, some "u", some "u", none, none⟩], [], [], [], 10, 99⟩ "u"
  refine ⟨h.1 ⟨"Kona", 2, []⟩
      ⟨2, ⟨some "BB", none, none, none⟩, 0, 0, some "u", some "u", none, none⟩
      ⟨1, "Kona", 2, [], 0, 0, some "u", some "u", none, none⟩ (by decide) (by decide), ?_⟩
  obtain ⟨cNew, h1, h2, h3, _⟩ := h.2 ⟨"Kona", 3, []⟩
    ⟨3, ⟨some "Sey", none, none, none⟩, 0, 0, some "u", some "u", none, none⟩
    (by decide) (by decide)
  exact ⟨cNew, h1, h2, h3⟩

/-- C10: the pre-create uniqueness lookup has no `deleted_at` filter, so the
conflict answer (400, state unchanged) is produced even when the sole
matching coffee is soft-deleted — a soft-deleted coffee's name is not
immediately reusable. -/
theorem createCoffee_conflict_matches_soft_deleted (st : AppState)
    (input : CoffeeCreateData) (user : UserId) (ro : Rec RoasterData) (c : Coffee)
    (hro : BaseRepository.get st.roasters input.roasterId = some ro)
    (hfilter : st.coffees.filter
      (fun x => x.name == input.name && x.roasterId == input.roasterId) = [c])
    (hdel : c.deletedAt.isSome = true) :
    createCoffee st input user = (.error 400, st) := by
  unfold createCoffee CoffeeRepository.getByNameAndRoaster
  rw [hro, hfilter]

/-- Witness for C10: recreating `("Kona", roaster 2)` after the original was
soft-deleted at tick 5 still answers 400. -/
theorem createCoffee_conflict_matches_soft_deleted_witness :
    (⟨1, "Kona", 2, [], 0, 0, some "u", some "u", some "u", some 5⟩ :
        Coffee).deletedAt.isSome = true
    ∧ createCoffee
        ⟨[⟨2, ⟨some "BB", none, none, none⟩, 0, 0, some "u", some "u", none, none⟩],
         [⟨1, "Kona", 2, [], 0, 0, some "u", some "u", some "u", some 5⟩],
         [], [], [], 10, 99⟩
        ⟨"Kona", 2, []⟩ "u"
      = (.error 400,
         ⟨[⟨2, ⟨some "BB", none, none, none⟩, 0, 0, some "u", some "u", none, none⟩],
          [⟨1, "Kona", 2, [], 0, 0, some "u", some "u", some "u", some 5⟩],
          [], [], [], 10, 99⟩) :=
  ⟨by decide,
   createCoffee_conflict_matches_soft_deleted
    ⟨[⟨2, ⟨some "BB", none, none, none⟩, 0, 0, some "u", some "u", none, none⟩],
     [⟨1, "Kona", 2, [], 0, 0, some "u", some "u", some "u", some 5⟩],
     [], [], [], 10, 99⟩
    ⟨"Kona", 2, []⟩ "u"
    ⟨2, ⟨some "BB", none, none, none⟩, 0, 0, some "u", some "u", none, none⟩
    ⟨1, "Kona", 2, [], 0, 0, some "u", some "u", some "u", some 5⟩
    (by decide) (by decide) (by decide)⟩

/-- The `try` body of the `GET /coffees/{id}` handler `get_coffee`
(`app/api/v1/endpoints/coffees.py:120-136`): fetch with
`get_with_flavor_tags` and raise 404 when absent. -/
def getCoffeeBody (st : AppState) (coffeeId : RecId) : Except Nat Coffee :=
  match CoffeeRepository.getWithFlavorTags st.coffees coffeeId with
  | none => .error 404
  | some c => .ok c

/-- Embedding of the full `get_coffee` handler: unlike its sibling handlers
this one has no `except HTTPException: raise` arm, so the catch-all
`except Exception` clause also catches the `HTTPException(404)` raised by
the body and re-raises a 500. -/
def getCoffee (st : AppState) (coffeeId : RecId) : Except Nat Coffee :=
  match getCoffeeBody st coffeeId with
  | .ok c => .ok c
  | .error _ => .error 500

/-- C9: evaluating `GET /coffees/{id}` at the failing input — an id that
resolves to no coffee. The body raises 404 as the claim expects, but the
handler's catch-all converts it, so the response status is 500, not 404. -/
theorem getCoffee_absent_responds_500 :
    getCoffee ⟨[], [], [], [], [], 0, 0⟩ 1 = .error 500
    ∧ getCoffeeBody ⟨[], [], [], [], [], 0, 0⟩ 1 = .error 404 := by
  exact ⟨rfl, rfl⟩

/-- Embedding of the `DELETE /tastings/{session_id}` handler
`delete_tasting_session` (`app/api/v1/endpoints/tastings.py:193-222`):
default `get` (404 when absent or already soft-deleted), then
`require_user_access(tasting.created_by, current_user_id)` (403 on
mismatch), then `tasting_repository.delete` — the inherited soft delete,
which touches only the session row; the `ValueError` arm maps to 404. -/
def deleteTastingSession (st : AppState) (sessionId : RecId)
    (currentUserId : UserId) : Except Nat Unit × AppState :=
  match BaseRepository.get st.sessions sessionId with
  | none => (.error 404, st)
  | some tasting =>
    if tasting.createdBy ≠ some currentUserId then
      (.error 403, st)
    else
      match BaseRepository.delete st.sessions sessionId (some currentUserId) st.now with
      | .ok r => (.ok (), { st with sessions := r.2 })
      | .error _ => (.error 404, st)

theorem BaseRepository.get_eq_some {alpha : Type} {db : Db alpha} {i : RecId}
    {r : Rec alpha} (h : BaseRepository.get db i = some r) :
    db.find? (fun x => x.id == i) = some r ∧ r.deletedAt = none := by
  unfold BaseRepository.get at h
  cases hf : db.find? (fun x => x.id == i) with
  | none => rw [hf] at h; exact absurd h (by simp)
  | some obj =>
    rw [hf] at h
    simp only [Bool.not_false, Bool.true_and] at h
    by_cases hd : obj.deletedAt.isSome
    · rw [if_pos hd] at h
      exact absurd h (by simp)
    · rw [if_neg hd] at h
      injection h with h2
      subst h2
      exact ⟨rfl, Option.not_isSome_iff_eq_none.mp hd⟩

/-- C8 counterexample: a session owned by `"alice"` with one tasting note.
The owner's DELETE succeeds, but the note table is untouched — the
session's notes are not removed, contradicting the claimed cascade. -/
theorem deleteTastingSession_owner_leaves_notes :
    (deleteTastingSession
        ⟨[], [], [],
         [⟨10, ⟨5, "alice"⟩, 0, 0, some "alice", some "alice", none, none⟩],
         [⟨20, ⟨10, 7⟩, 0, 0, some "alice", some "alice", none, none⟩], 30, 99⟩
        10 "alice").1 = .ok ()
    ∧ (deleteTastingSession
        ⟨[], [], [],
         [⟨10, ⟨5, "alice"⟩, 0, 0, some "alice", some "alice", none, none⟩],
         [⟨20, ⟨10, 7⟩, 0, 0, some "alice", some "alice", none, none⟩], 30, 99⟩
        10 "alice").2.notes
      = [⟨20, ⟨10, 7⟩, 0, 0, some "alice", some "alice", none, none⟩]
    ∧ ([(⟨20, ⟨10, 7⟩, 0, 0, some "alice", some "alice", none, none⟩ : Rec NoteData)].filter
        (fun n => n.payload.tastingSessionId == 10)).length = 1 := by
  exact ⟨rfl, rfl, rfl⟩

/-- C8 (amended): deleting a TastingSession as an authenticated non-owner
(per `created_by`) answers 403 and leaves the state unchanged; deleting as
the owner succeeds and soft-deletes the session (stamping
`deleted_at`/`deleted_by`), while the session's TastingNotes are left
untouched rather than removed. -/
theorem deleteTastingSession_owner_only_soft_delete (st : AppState)
    (sessionId : RecId) (user : UserId) (hu : truthy (some user) = true) :
    (∀ t, BaseRepository.get st.sessions sessionId = some t →
      t.createdBy ≠ some user →
      deleteTastingSession st sessionId user = (.error 403, st))
    ∧ (∀ t, BaseRepository.get st.sessions sessionId = some t →
      t.createdBy = some user →
      (deleteTastingSession st sessionId user).1 = .ok ()
      ∧ (deleteTastingSession st sessionId user).2.notes = st.notes
      ∧ ∃ t1, BaseRepository.get (deleteTastingSession st sessionId user).2.sessions
            sessionId true = some t1
          ∧ t1.deletedAt = some st.now ∧ t1.deletedBy = some user) := by
  constructor
  · intro t hget hne
    unfold deleteTastingSession
    rw [hget]
    simp [hne]
  · intro t hget heq
    have hinv := BaseRepository.get_eq_some hget
    have hid : t.id = sessionId := by
      have h2 := List.find?_some hinv.1
      simpa using h2
    have hdel : BaseRepository.delete st.sessions sessionId (some user) st.now
        = .ok ({ t with deletedAt := some st.now, deletedBy := some user },
            st.sessions.map (fun x => if x.id == sessionId
              then { t with deletedAt := some st.now, deletedBy := some user } else x)) := by
      unfold BaseRepository.delete
      rw [hget]
      simp [hu]
    have hfind1 : (st.sessions.map (fun x => if x.id == sessionId
          then { t with deletedAt := some st.now, deletedBy := some user } else x)).find?
          (fun x => x.id == sessionId)
        = some { t with deletedAt := some st.now, deletedBy := some user } := by
      rw [find?_map_idUpdate st.sessions sessionId
        { t with deletedAt := some st.now, deletedBy := some user } hid, hinv.1]
      simp [hid]
    have hendpoint : deleteTastingSession st sessionId user
        = (.ok (), { st with sessions := st.sessions.map (fun x => if x.id == sessionId
            then { t with deletedAt := some st.now, deletedBy := some user } else x) }) := by
      unfold deleteTastingSession
      rw [hget, hdel]
      simp [heq]
    refine ⟨by rw [hendpoint], by rw [hendpoint],
      ⟨{ t with deletedAt := some st.now, deletedBy := some user }, ?_, rfl, rfl⟩⟩
    rw [hendpoint]
    unfold BaseRepository.get
    rw [hfind1]
    simp

/-- Witness for C8 (amended): `"bob"` is refused with 403 and the state is
unchanged; owner `"alice"` gets a soft-deleted session with the note table
untouched. -/
theorem deleteTastingSession_owner_only_soft_delete_witness :
    deleteTastingSession
        ⟨[], [], [],
         [⟨10, ⟨5, "alice"⟩, 0, 0, some "alice", some "alice", none, none⟩],
         [⟨20, ⟨10, 7⟩, 0, 0, some "alice", some "alice", none, none⟩], 30, 99⟩
        10 "bob"
      = (.error 403,
         ⟨[], [], [],
          [⟨10, ⟨5, "alice"⟩, 0, 0, some "alice", some "alice", none, none⟩],
          [⟨20, ⟨10, 7⟩, 0, 0, some "alice", some "alice", none, none⟩], 30, 99⟩)
    ∧ ((deleteTastingSession
        ⟨[], [], [],
         [⟨10, ⟨5, "alice"⟩, 0, 0, some "alice", some "alice", none, none⟩],
         [⟨20, ⟨10, 7⟩, 0, 0, some "alice", some "alice", none, none⟩], 30, 99⟩
        10 "alice").1 = .ok ()
      ∧ (deleteTastingSession
        ⟨[], [], [],
         [⟨10, ⟨5, "alice"⟩, 0, 0, some "alice", some "alice", none, none⟩],
         [⟨20, ⟨10, 7⟩, 0, 0, some "alice", some "alice", none, none⟩], 30, 99⟩
        10 "alice").2.notes
        = [⟨20, ⟨10, 7⟩, 0, 0, some "alice", some "alice", none, none⟩]
      ∧ ∃ t1, BaseRepository.get (deleteTastingSession
          ⟨[], [], [],
           [⟨10, ⟨5, "alice"⟩, 0, 0, some "alice", some "alice", none, none⟩],
           [⟨20, ⟨10, 7⟩, 0, 0, some "alice", some "alice", none, none⟩], 30, 99⟩
          10 "alice").2.sessions 10 true = some t1
        ∧ t1.deletedAt = some 99 ∧ t1.deletedBy = some "alice") := by
  have hb := deleteTastingSession_owner_only_soft_delete
    ⟨[], [], [],
     [⟨10, ⟨5, "alice"⟩, 0, 0, some "alice", some "alice", none, none⟩],
     [⟨20, ⟨10, 7⟩, 0, 0, some "alice", some "alice", none, none⟩], 30, 99⟩
    10 "bob" (by decide)
  have ha := deleteTastingSession_owner_only_soft_delete
    ⟨[], [], [],
     [⟨10, ⟨5, "alice"⟩, 0, 0, some "alice", some "alice", none, none⟩],
     [⟨20, ⟨10, 7⟩, 0, 0, some "alice", some "alice", none, none⟩], 30, 99⟩
    10 "alice" (by decide)
  exact ⟨hb.1 ⟨10, ⟨5, "alice"⟩, 0, 0, some "alice", some "alice", none, none⟩
      (by decide) (by decide),
    ha.2 ⟨10, ⟨5, "alice"⟩, 0, 0, some "alice", some "alice", none, none⟩
      (by decide) (by decide)⟩

/-- C7 counterexample: a whitespace-only name is NOT skipped. `" "` is a
truthy Python string, so it passes the `if name:` guard, is stripped to the
empty string, and `find_or_create_by_name` then creates a tag whose name is
`""` — the result list has one element where the claim requires zero. -/
theorem findOrCreateMultiple_blank_not_skipped :
    ((FlavorTagRepository.findOrCreateMultiple ⟨[], 0, 0⟩ [" "]).1).length = 1
    ∧ ((FlavorTagRepository.findOrCreateMultiple ⟨[], 0, 0⟩ [" "]).2).tags.map
        FlavorTag.name = [""] := by
  exact ⟨rfl, rfl⟩

theorem findOrCreateByName_result_matches (st : TagDb) (n : String)
    (c : Option String) :
    ilike (FlavorTagRepository.findOrCreateByName st n c).1.name n = true := by
  unfold FlavorTagRepository.findOrCreateByName
  cases hf : st.tags.find? (fun t => ilike t.name n) with
  | some t => simpa using List.find?_some hf
  | none =>
    simp only
    exact ilike_of_lower_eq rfl

theorem findOrCreateByName_preserves_caseDistinct (st : TagDb) (n : String)
    (c : Option String)
    (h : st.tags.Pairwise fun a b => lowerChars a.name ≠ lowerChars b.name) :
    (FlavorTagRepository.findOrCreateByName st n c).2.tags.Pairwise
      fun a b => lowerChars a.name ≠ lowerChars b.name := by
  unfold FlavorTagRepository.findOrCreateByName
  cases hf : st.tags.find? (fun t => ilike t.name n) with
  | some t => simpa using h
  | none =>
    simp only
    rw [List.pairwise_append]
    refine ⟨h, List.pairwise_singleton _ _, ?_⟩
    intro a ha b hb
    simp only [List.mem_singleton] at hb
    subst hb
    intro heq
    have hmatch : ilike a.name n = true := ilike_of_lower_eq heq
    exact absurd hmatch (by simpa using List.find?_eq_none.mp hf a ha)

theorem findOrCreateMultiple_preserves_caseDistinct (names : List String) :
    ∀ st : TagDb,
      (st.tags.Pairwise fun a b => lowerChars a.name ≠ lowerChars b.name) →
      (FlavorTagRepository.findOrCreateMultiple st names).2.tags.Pairwise
        fun a b => lowerChars a.name ≠ lowerChars b.name := by
  induction names with
  | nil => intro st h; simpa [FlavorTagRepository.findOrCreateMultiple] using h
  | cons n ns ih =>
    intro st h
    unfold FlavorTagRepository.findOrCreateMultiple
    by_cases hn : n = ""
    · simp only [hn, ne_eq, not_true_eq_false, if_false]
      exact ih st h
    · simp only [ne_eq, hn, not_false_eq_true, if_true]
      exact ih _ (findOrCreateByName_preserves_caseDistinct st (pyStrip n) none h)

theorem findOrCreateMultiple_order (names : List String) :
    ∀ st : TagDb,
      List.Forall₂ (fun n t => ilike t.name (pyStrip n) = true)
        (names.filter (fun n => n ≠ ""))
        (FlavorTagRepository.findOrCreateMultiple st names).1 := by
  induction names with
  | nil =>
    intro st
    simp [FlavorTagRepository.findOrCreateMultiple]
  | cons n ns ih =>
    intro st
    unfold FlavorTagRepository.findOrCreateMultiple
    by_cases hn : n = ""
    · simp only [hn, List.filter_cons, ne_eq, not_true_eq_false, decide_False,
        Bool.false_eq_true, if_false]
      exact ih st
    · simp only [List.filter_cons, ne_eq, hn, not_false_eq_true, decide_True, if_true]
      exact List.Forall₂.cons (findOrCreateByName_result_matches st (pyStrip n) none) (ih _)

/-- C7 (amended): `find_or_create_multiple` returns the resolved tags in
input order — one per input name that is non-empty before trimming, each
`ILIKE`-matching its stripped input name. Only names equal to the empty
string are skipped (whitespace-only names are stripped and resolved like any
other). When the existing tags are pairwise case-insensitively distinct,
they remain so: no tag is ever created whose name differs only in case from
an existing tag's name. -/
theorem findOrCreateMultiple_order_and_dedupe (st : TagDb) (names : List String) :
    List.Forall₂ (fun n t => ilike t.name (pyStrip n) = true)
      (names.filter (fun n => n ≠ ""))
      (FlavorTagRepository.findOrCreateMultiple st names).1
    ∧ ((st.tags.Pairwise fun a b => lowerChars a.name ≠ lowerChars b.name) →
      (FlavorTagRepository.findOrCreateMultiple st names).2.tags.Pairwise
        fun a b => lowerChars a.name ≠ lowerChars b.name) :=
  ⟨findOrCreateMultiple_order names st,
   fun h => findOrCreateMultiple_preserves_caseDistinct names st h⟩

/-- Witness for C7 (amended) on `["Citrus", "", "berry", "CITRUS"]` from an
empty repository: the empty name is dropped, order is preserved, and the
final tag table stays case-insensitively duplicate-free. -/
theorem findOrCreateMultiple_order_and_dedupe_witness :
    List.Forall₂ (fun n t => ilike t.name (pyStrip n) = true)
      (["Citrus", "", "berry", "CITRUS"].filter (fun n => n ≠ ""))
      (FlavorTagRepository.findOrCreateMultiple ⟨[], 0, 0⟩
        ["Citrus", "", "berry", "CITRUS"]).1
    ∧ (FlavorTagRepository.findOrCreateMultiple ⟨[], 0, 0⟩
        ["Citrus", "", "berry", "CITRUS"]).2.tags.Pairwise
        (fun a b => lowerChars a.name ≠ lowerChars b.name) := by
  have h := findOrCreateMultiple_order_and_dedupe ⟨[], 0, 0⟩
    ["Citrus", "", "berry", "CITRUS"]
  exact ⟨h.1, h.2 List.Pairwise.nil⟩
